import Mathlib

/-!
Verification development for a Canadian trending-videos fetcher
(`trending_videos_canada.py`) and its Streamlit front end (`app.py`).
Pure Lean models of the acquisition-and-cache-refresh engine are
translated from the source: duration formatting (`parse_duration`),
tag serialization and deserialization, pagination (`fetch_top_videos`),
channel batching (`fetch_channels_info`), record normalization
(`videos_to_dataframe`), durable CSV rows (`save_to_csv`), and the
staleness policy (`get_last_scrape_time`, `should_refresh_data`, the
per-category refresh block).  Python strings are modelled as `String`
or as `List Char`, counts as `Int`/`Nat`, and timestamps as `Int`
seconds since the epoch (Python `datetime`/`timedelta` comparisons are
exact, so integer seconds are faithful).
-/

set_option autoImplicit false

/-! Duration parsing (`trending_videos_canada.py:106-123`).

The Python code runs `re.match(r'PT(?:(\d+)H)?(?:(\d+)M)?(?:(\d+)S)?', s)`.
`re.match` anchors only at the start; each optional group `(\d+)X` can
match only by consuming a maximal digit run followed by the literal `X`
(a shorter digit run is followed by another digit, never by `X`), so the
regex is equivalent to the sequential maximal-munch parser below. -/

/-- Value of a decimal digit string, as Python `int` computes it on the
digits captured by a regex group (`trending_videos_canada.py:116-118`). -/
def digitsToNat (ds : List Char) : Nat :=
  ds.foldl (fun acc c => acc * 10 + (c.toNat - '0'.toNat)) 0

/-- Maximal leading run of decimal digits, with the remaining input. -/
def takeDigits : List Char → List Char × List Char
  | [] => ([], [])
  | c :: cs =>
    if c.isDigit then
      ((c :: (takeDigits cs).1), (takeDigits cs).2)
    else ([], c :: cs)

/-- One optional regex group `(?:(\d+)X)?` at the front of `s`: a nonempty
digit run immediately followed by the literal `letterC` yields the captured
value and the rest; otherwise the group matches nothing and `s` is kept. -/
def tryComponent (letterC : Char) (s : List Char) : Option Nat × List Char :=
  match takeDigits s with
  | ([], _) => (none, s)
  | (_ :: _, []) => (none, s)
  | (d :: ds, r :: rs) =>
    if r = letterC then (some (digitsToNat (d :: ds)), rs) else (none, s)

/-- Python `f"{n:02d}"`: decimal digits, zero-padded on the left to width 2. -/
def pad2 (n : Nat) : String :=
  if n < 10 then "0" ++ toString n else toString n

/-- Formatting step of `parse_duration` (`trending_videos_canada.py:116-123`):
absent groups count as 0; `H:MM:SS` when hours > 0, else `M:SS`. -/
def formatHMS (h m sec : Option Nat) : String :=
  if 0 < h.getD 0 then
    toString (h.getD 0) ++ ":" ++ pad2 (m.getD 0) ++ ":" ++ pad2 (sec.getD 0)
  else
    toString (m.getD 0) ++ ":" ++ pad2 (sec.getD 0)

/-- Run the three regex groups H, M, S in sequence after the `PT` anchor and
format the result. -/
def formatFrom (rest : List Char) : String :=
  formatHMS (tryComponent 'H' rest).1
    (tryComponent 'M' (tryComponent 'H' rest).2).1
    (tryComponent 'S' (tryComponent 'M' (tryComponent 'H' rest).2).2).1

/-- Model of `parse_duration` (`trending_videos_canada.py:106-123`): empty
input yields `""`; input not starting with `PT` fails `re.match` and is
returned unchanged; otherwise the three optional groups are extracted and
formatted (trailing unmatched input is ignored, as `re.match` does). -/
def parse_duration (s : String) : String :=
  if s = "" then ""
  else
    match s.data with
    | p :: t :: rest => if p = 'P' ∧ t = 'T' then formatFrom rest else s
    | _ => s

/-- Test whether the input starts with the characters `PT` — exactly the
inputs on which the regex `PT(?:(\d+)H)?(?:(\d+)M)?(?:(\d+)S)?` matches,
since all three groups are optional. -/
def startsPT (s : String) : Bool :=
  match s.data with
  | p :: t :: _ => decide (p = 'P') && decide (t = 'T')
  | _ => false

/-- Parseable ISO-8601 hours/minutes/seconds duration in the sense of the
spec (§4.3): `PT#H#M#S`, each component optional, the whole input consumed. -/
def isParseableHMSDuration (s : String) : Bool :=
  match s.data with
  | p :: t :: rest =>
    decide (p = 'P') && decide (t = 'T') &&
      (tryComponent 'S' (tryComponent 'M' (tryComponent 'H' rest).2).2).2.isEmpty
  | _ => false

lemma takeDigits_digits (ds : List Char) (h : ∀ c ∈ ds, c.isDigit = true)
    (c : Char) (hc : c.isDigit = false) (rest : List Char) :
    takeDigits (ds ++ c :: rest) = (ds, c :: rest) := by
  induction ds with
  | nil => simp [takeDigits, hc]
  | cons d ds ih =>
    have hd : d.isDigit = true := h d (by simp)
    have ih' := ih (fun x hx => h x (by simp [hx]))
    simp [takeDigits, hd, ih']

lemma tryComponent_hit (letterC : Char) (hl : letterC.isDigit = false)
    (ds : List Char) (hne : ds ≠ []) (hd : ∀ c ∈ ds, c.isDigit = true)
    (rest : List Char) :
    tryComponent letterC (ds ++ letterC :: rest) = (some (digitsToNat ds), rest) := by
  cases ds with
  | nil => exact absurd rfl hne
  | cons d ds' =>
    unfold tryComponent
    rw [takeDigits_digits (d :: ds') hd letterC hl rest]
    simp

lemma parse_duration_general (dh dm ds : List Char)
    (h1 : dh ≠ []) (h2 : dm ≠ []) (h3 : ds ≠ [])
    (hd1 : ∀ c ∈ dh, c.isDigit = true) (hd2 : ∀ c ∈ dm, c.isDigit = true)
    (hd3 : ∀ c ∈ ds, c.isDigit = true) :
    parse_duration (String.mk ('P' :: 'T' :: (dh ++ 'H' :: (dm ++ 'M' :: (ds ++ ['S']))))) =
      if 0 < digitsToNat dh then
        toString (digitsToNat dh) ++ ":" ++ pad2 (digitsToNat dm) ++ ":" ++ pad2 (digitsToNat ds)
      else
        toString (digitsToNat dm) ++ ":" ++ pad2 (digitsToNat ds) := by
  have hne : String.mk ('P' :: 'T' :: (dh ++ 'H' :: (dm ++ 'M' :: (ds ++ ['S'])))) ≠ "" := by
    intro h
    have hdata := congrArg String.data h
    simp at hdata
  unfold parse_duration
  rw [if_neg hne]
  show (if ('P' : Char) = 'P' ∧ ('T' : Char) = 'T' then
      formatFrom (dh ++ 'H' :: (dm ++ 'M' :: (ds ++ ['S']))) else _) = _
  rw [if_pos ⟨rfl, rfl⟩]
  unfold formatFrom
  rw [tryComponent_hit 'H' (by decide) dh h1 hd1]
  simp only []
  rw [tryComponent_hit 'M' (by decide) dm h2 hd2]
  simp only []
  rw [show ds ++ ['S'] = ds ++ 'S' :: [] from rfl,
    tryComponent_hit 'S' (by decide) ds h3 hd3]
  simp [formatHMS]

/-- C5: `parse_duration` maps "PT4M13S" to "4:13", "PT1H2M3S" to "1:02:03",
"PT45S" to "0:45", and the empty string to ""; in general, on an input
`PT<h>H<m>M<s>S` the output is `H:MM:SS` when hours > 0 and `M:SS`
otherwise, with the `MM`/`SS` fields zero-padded to two digits. -/
theorem parse_duration_formatting :
    parse_duration "PT4M13S" = "4:13" ∧
    parse_duration "PT1H2M3S" = "1:02:03" ∧
    parse_duration "PT45S" = "0:45" ∧
    parse_duration "" = "" ∧
    ∀ dh dm ds : List Char, dh ≠ [] → dm ≠ [] → ds ≠ [] →
      (∀ c ∈ dh, c.isDigit = true) → (∀ c ∈ dm, c.isDigit = true) →
      (∀ c ∈ ds, c.isDigit = true) →
      parse_duration (String.mk ('P' :: 'T' :: (dh ++ 'H' :: (dm ++ 'M' :: (ds ++ ['S']))))) =
        if 0 < digitsToNat dh then
          toString (digitsToNat dh) ++ ":" ++ pad2 (digitsToNat dm) ++ ":" ++ pad2 (digitsToNat ds)
        else
          toString (digitsToNat dm) ++ ":" ++ pad2 (digitsToNat ds) := by
  refine ⟨by decide, by decide, by decide, by decide, ?_⟩
  intro dh dm ds h1 h2 h3 hd1 hd2 hd3
  exact parse_duration_general dh dm ds h1 h2 h3 hd1 hd2 hd3

/-- Witness for C5: the general formatting law evaluated at hours = 2,
minutes = 3, seconds = 4. -/
theorem parse_duration_formatting_witness :
    parse_duration (String.mk ('P' :: 'T' :: (['2'] ++ 'H' :: (['3'] ++ 'M' :: (['4'] ++ ['S']))))) =
      "2:03:04" := by
  have h := parse_duration_formatting.2.2.2.2 ['2'] ['3'] ['4']
    (by decide) (by decide) (by decide) (by decide) (by decide) (by decide)
  exact h.trans (by decide)

/-- C6: counterexample — "PTX" is not a parseable hours/minutes/seconds
duration, yet `parse_duration` does not pass it through unchanged: the
anchored regex still matches its `PT` prefix with all groups absent, so the
result is "0:00". -/
theorem parse_duration_passthrough_counterexample :
    isParseableHMSDuration "PTX" = false ∧
    parse_duration "PTX" ≠ "PTX" ∧
    parse_duration "PTX" = "0:00" := by decide

/-- C6 (amended): `parse_duration` is total, and every input that does not
begin with "PT" — including the empty string — is returned unchanged; inputs
that begin with "PT" are never passed through on parse failure but are
best-effort formatted with absent or malformed components read as 0. -/
theorem parse_duration_passthrough_amended (s : String) (h : startsPT s = false) :
    parse_duration s = s := by
  unfold parse_duration
  by_cases hs : s = ""
  · simp [hs]
  · rw [if_neg hs]
    unfold startsPT at h
    cases hd : s.data with
    | nil => simp
    | cons p l =>
      cases l with
      | nil => simp
      | cons t rest =>
        rw [hd] at h
        have hnpt : ¬(p = 'P' ∧ t = 'T') := by
          intro hpt
          rw [hpt.1, hpt.2] at h
          simp at h
        simp only []
        rw [if_neg hnpt]

/-- Witness for C6 (amended): a string not starting with "PT" comes back
unchanged. -/
theorem parse_duration_passthrough_amended_witness :
    parse_duration "hello" = "hello" :=
  parse_duration_passthrough_amended "hello" (by decide)

/-! Tag serialization.  Writing: `tags_str = "|".join(tags) if tags else ""`
(`trending_videos_canada.py:275-276` and `341-342`).  Reading:
`x.split("|") if x else []` (`app.py:111-114`).  Tags are modelled as
`List Char`. -/

/-- Model of `"|".join(tags) if tags else ""`: the pipe-joined tags
(`join` of the empty list is already the empty string). -/
def joinTags : List (List Char) → List Char
  | [] => []
  | [t] => t
  | t :: ts => t ++ '|' :: joinTags ts

/-- Model of Python `str.split("|")`: cut at every pipe; never returns the
empty list, and `splitPipe [] = [[]]` just as `"".split("|") == [""]`. -/
def splitPipe : List Char → List (List Char)
  | [] => [[]]
  | c :: cs =>
    if c = '|' then [] :: splitPipe cs
    else (c :: (splitPipe cs).headD []) :: (splitPipe cs).tail

/-- Model of `x.split("|") if x else []` (`app.py:112-114`). -/
def parseTags (s : List Char) : List (List Char) :=
  if s = [] then [] else splitPipe s

lemma splitPipe_nopipe (t : List Char) (h : '|' ∉ t) : splitPipe t = [t] := by
  induction t with
  | nil => rfl
  | cons c cs ih =>
    have hc : ¬c = '|' := by intro e; exact h (by simp [e])
    have ih' : splitPipe cs = [cs] := ih (fun hm => h (by simp [hm]))
    simp [splitPipe, hc, ih']

lemma splitPipe_append (t : List Char) (h : '|' ∉ t) (s : List Char) :
    splitPipe (t ++ '|' :: s) = t :: splitPipe s := by
  induction t with
  | nil => simp [splitPipe]
  | cons c cs ih =>
    have hc : ¬c = '|' := by intro e; exact h (by simp [e])
    have ih' := ih (fun hm => h (by simp [hm]))
    simp [splitPipe, hc, ih']

lemma joinTags_ne_nil : ∀ tags : List (List Char),
    tags ≠ [] → tags ≠ [[]] → joinTags tags ≠ []
  | [], h, _ => absurd rfl h
  | [t], _, h2 => by
    have ht : t ≠ [] := fun e => h2 (by rw [e])
    simpa [joinTags] using ht
  | t :: t' :: ts, _, _ => by
    cases t <;> simp [joinTags]

lemma splitPipe_joinTags : ∀ tags : List (List Char),
    tags ≠ [] → (∀ t ∈ tags, '|' ∉ t) → splitPipe (joinTags tags) = tags
  | [], h, _ => absurd rfl h
  | [t], _, hp => by
    simp [joinTags, splitPipe_nopipe t (hp t (by simp))]
  | t :: t' :: ts, _, hp => by
    have ih := splitPipe_joinTags (t' :: ts) (by simp)
      (fun u hu => hp u (by simp; exact Or.inr (by simpa using hu)))
    simp only [joinTags]
    rw [splitPipe_append t (hp t (by simp)), ih]

/-- C7: counterexample — the singleton sequence holding one empty tag
contains no pipe, yet deserializing its serialization yields the empty
sequence, not the original: `"|".join([""])` is `""`, which deserializes
to `[]`. -/
theorem tag_round_trip_counterexample :
    ('|' ∉ ([] : List Char)) ∧
    parseTags (joinTags [([] : List Char)]) = [] ∧
    parseTags (joinTags [([] : List Char)]) ≠ [([] : List Char)] := by decide

/-- C7 (amended): for every sequence of pipe-free tags other than the
singleton empty tag `[""]`, deserializing the serialized form yields the
original sequence; serializing `[]` yields `""` and deserializing `""`
yields `[]`. -/
theorem tag_round_trip_amended (tags : List (List Char))
    (hp : ∀ t ∈ tags, '|' ∉ t) (hne : tags ≠ [([] : List Char)]) :
    parseTags (joinTags tags) = tags ∧
    joinTags [] = [] ∧ parseTags [] = [] := by
  refine ⟨?_, rfl, rfl⟩
  cases htags : tags with
  | nil => simp [joinTags, parseTags]
  | cons t ts =>
    have hjn : joinTags (t :: ts) ≠ [] :=
      joinTags_ne_nil (t :: ts) (by simp) (by rw [← htags]; exact hne)
    unfold parseTags
    rw [if_neg hjn]
    exact splitPipe_joinTags (t :: ts) (by simp) (by rw [← htags]; exact hp)

/-- Witness for C7 (amended): the two-tag sequence `["a", "b"]` round-trips. -/
theorem tag_round_trip_amended_witness :
    parseTags (joinTags [['a'], ['b']]) = [['a'], ['b']] :=
  (tag_round_trip_amended [['a'], ['b']] (by decide) (by decide)).1

/-! Staleness policy (`trending_videos_canada.py:34-73`, `app.py:311-319`).

A timestamp parsed by `datetime.fromisoformat` carries wall-clock seconds
and an optional UTC offset; `should_refresh_data` makes a naive timestamp
timezone-aware with `replace(tzinfo=timezone.utc)`, i.e. reads the wall
clock as UTC.  `now` is UTC seconds.  All `timedelta` comparisons are
exact, so integer seconds model them faithfully. -/

/-- Timestamp as parsed from the `scraped_at` column: wall-clock seconds
plus the optional UTC offset of its timezone, if the ISO string carried
one. -/
structure ParsedTs where
  wall : Int
  tzOffset : Option Int
deriving DecidableEq

/-- Instant in UTC seconds denoted by a parsed timestamp after
`should_refresh_data` normalizes it: a naive timestamp is reinterpreted
as UTC unchanged (`trending_videos_canada.py:62-63`), an aware one is
shifted by its offset. -/
def ParsedTs.utc (t : ParsedTs) : Int :=
  match t.tzOffset with
  | none => t.wall
  | some o => t.wall - o

/-- Observable state of the cache CSV file as `get_last_scrape_time` reads
it: absent (`os.path.exists` false), unreadable (any exception while
opening, reading or parsing — caught at `trending_videos_canada.py:47-48`),
or a list of data rows, each carrying its parsed `scraped_at` value
(`none` when the column is absent, empty, or fails to parse). -/
inductive CsvFileState
  | absent
  | unreadable
  | rows (rs : List (Option ParsedTs))

/-- Model of `get_last_scrape_time` (`trending_videos_canada.py:34-50`):
`None` for a missing or unreadable file; otherwise only the first data row
is examined (the loop breaks after it), and its `scraped_at` is returned
when present. -/
def get_last_scrape_time : CsvFileState → Option ParsedTs
  | .absent => none
  | .unreadable => none
  | .rows [] => none
  | .rows (r :: _) => r

/-- Model of `should_refresh_data` (`trending_videos_canada.py:53-73`):
refresh when there is no stored timestamp, or when the age
`now - last_scrape` strictly exceeds `interval_minutes` minutes. -/
def should_refresh_data (file : CsvFileState) (now intervalMinutes : Int) : Bool :=
  match get_last_scrape_time file with
  | none => true
  | some ts => decide (intervalMinutes * 60 < now - ts.utc)

/-- The trending tab's refresh block (`app.py:311-314`): a network fetch is
issued exactly when `should_refresh_data` says so. -/
def tab_trending_fetches (file : CsvFileState) (now intervalMinutes : Int) : Bool :=
  should_refresh_data file now intervalMinutes

/-- C2: with a stored timestamp 59 minutes old and a 60-minute threshold the
staleness check reports no refresh (so the trending tab makes no network
call); 61 minutes old triggers a refresh; and in general the cached data is
fresh exactly when `now - fetchTimestamp ≤ threshold`. -/
theorem should_refresh_staleness (w : Int) (rest : List (Option ParsedTs)) :
    should_refresh_data (.rows (some ⟨w, none⟩ :: rest)) (w + 59 * 60) 60 = false ∧
    tab_trending_fetches (.rows (some ⟨w, none⟩ :: rest)) (w + 59 * 60) 60 = false ∧
    should_refresh_data (.rows (some ⟨w, none⟩ :: rest)) (w + 61 * 60) 60 = true ∧
    ∀ (ts : ParsedTs) (now interval : Int),
      should_refresh_data (.rows (some ts :: rest)) now interval = false ↔
        now - ts.utc ≤ interval * 60 := by
  refine ⟨?_, ?_, ?_, ?_⟩
  · simp only [should_refresh_data, get_last_scrape_time, ParsedTs.utc,
      decide_eq_false_iff_not]
    omega
  · simp only [tab_trending_fetches, should_refresh_data, get_last_scrape_time,
      ParsedTs.utc, decide_eq_false_iff_not]
    omega
  · simp only [should_refresh_data, get_last_scrape_time, ParsedTs.utc,
      decide_eq_true_eq]
    omega
  · intro ts now interval
    simp only [should_refresh_data, get_last_scrape_time,
      decide_eq_false_iff_not]
    omega

/-- Witness for C2: timestamp at epoch 0, checked 59 minutes later — no
refresh. -/
theorem should_refresh_staleness_witness :
    should_refresh_data (.rows [some ⟨0, none⟩]) (59 * 60) 60 = false := by
  have h := (should_refresh_staleness 0 []).1
  simpa using h

/-- C10: the staleness check is total (exceptions are caught and the model's
`unreadable` state covers them): an absent, unreadable or empty file, or a
first row without a usable `scraped_at`, gives `get_last_scrape_time = none`
and `should_refresh_data = true`; and a timestamp without timezone
information is treated exactly as one whose offset is zero, i.e. read as
UTC. -/
theorem staleness_check_total (now interval w : Int)
    (rest : List (Option ParsedTs)) :
    get_last_scrape_time .absent = none ∧
    get_last_scrape_time .unreadable = none ∧
    get_last_scrape_time (.rows []) = none ∧
    get_last_scrape_time (.rows (none :: rest)) = none ∧
    should_refresh_data .absent now interval = true ∧
    should_refresh_data .unreadable now interval = true ∧
    should_refresh_data (.rows []) now interval = true ∧
    should_refresh_data (.rows (none :: rest)) now interval = true ∧
    should_refresh_data (.rows (some ⟨w, none⟩ :: rest)) now interval =
      should_refresh_data (.rows (some ⟨w, some 0⟩ :: rest)) now interval := by
  refine ⟨rfl, rfl, rfl, rfl, rfl, rfl, rfl, rfl, ?_⟩
  simp [should_refresh_data, get_last_scrape_time, ParsedTs.utc]

/-- Witness for C10: an absent cache file forces a refresh. -/
theorem staleness_check_total_witness :
    should_refresh_data .absent 0 60 = true :=
  (staleness_check_total 0 60 0 []).2.2.2.2.1

/-! Raw records, normalization and the durable CSV rows
(`trending_videos_canada.py:250-359`).  API payload strings are `String`;
the two statistics counts are kept as the raw digit strings the API sends
(`Option (List Char)`, `none` when the key is absent), because the two
writers treat them differently. -/

/-- Statistics object of a raw video item: the counts are decimal strings
in the API payload and may be absent (`stats.get(...)`). -/
structure RawStats where
  viewCount : Option (List Char)
  likeCount : Option (List Char)
deriving DecidableEq

/-- Snippet object of a raw video item, with the fields the code reads
via `snip.get(...)` (defaults modelled as the values `get` supplies). -/
structure RawSnippet where
  title : String
  publishedAt : String
  channelId : String
  categoryId : String
  channelTitle : String
  tags : List (List Char)
deriving DecidableEq

/-- Raw video item as returned by the videos endpoint; `duration` is
`contentDetails.get("duration", "")`. -/
structure RawVideo where
  id : String
  snippet : RawSnippet
  stats : RawStats
  duration : String
deriving DecidableEq

/-- Channel metadata entry built by `fetch_channels_info`
(`trending_videos_canada.py:200-203`). -/
structure ChannelMeta where
  channel_title : String
  channel_country : String
deriving DecidableEq

/-- Python `int` on the string a regex-free count field holds: an optional
leading minus sign followed by digits (`int("-5") == -5`). -/
def pyInt (s : List Char) : Int :=
  match s with
  | [] => 0
  | c :: cs => if c = '-' then -(digitsToNat cs : Int) else (digitsToNat (c :: cs) : Int)

/-- Model of `int(stats.get("viewCount", 0) or 0)`
(`trending_videos_canada.py:284-285`): a missing key gives the default `0`,
`or 0` turns a falsy (empty) string into `0`, anything else is parsed. -/
def pyIntOrZero (v : Option (List Char)) : Int :=
  match v with
  | none => 0
  | some s => if s = [] then 0 else pyInt s

/-- One normalized record of `videos_to_dataframe`
(`trending_videos_canada.py:280-292`). -/
structure VideoRow where
  video_id : String
  video_title : String
  video_published_at : String
  video_view_count : Int
  video_like_count : Int
  video_duration : String
  video_category : String
  video_tags : List Char
  channel_id : String
  channel_title : String
  channel_country : String
deriving DecidableEq

/-- Row construction of `videos_to_dataframe`
(`trending_videos_canada.py:262-292`): counts via `int(... or 0)`, category
name looked up with default `""`, duration formatted, tags pipe-joined,
channel metadata looked up with snippet fallbacks. -/
def videos_to_dataframe_row (categories : List (String × String))
    (channel_info : List (String × ChannelMeta)) (v : RawVideo) : VideoRow :=
  { video_id := v.id
    video_title := v.snippet.title
    video_published_at := v.snippet.publishedAt
    video_view_count := pyIntOrZero v.stats.viewCount
    video_like_count := pyIntOrZero v.stats.likeCount
    video_duration := parse_duration v.duration
    video_category := (List.lookup v.snippet.categoryId categories).getD ""
    video_tags := joinTags v.snippet.tags
    channel_id := v.snippet.channelId
    channel_title :=
      match List.lookup v.snippet.channelId channel_info with
      | some m => m.channel_title
      | none => v.snippet.channelTitle
    channel_country :=
      match List.lookup v.snippet.channelId channel_info with
      | some m => m.channel_country
      | none => "" }

/-- Model of `videos_to_dataframe` (`trending_videos_canada.py:250-294`):
one normalized row per raw video, in order. -/
def videos_to_dataframe (videos : List RawVideo) (categories : List (String × String))
    (channel_info : List (String × ChannelMeta)) : List VideoRow :=
  videos.map (videos_to_dataframe_row categories channel_info)

/-- One row of the durable CSV file written by `save_to_csv`
(`trending_videos_canada.py:306-358`); the count cells hold the raw strings
that the writer emits, and `scraped_at` is the ISO timestamp string. -/
structure CsvRow where
  video_id : String
  video_title : String
  video_published_at : String
  video_view_count : List Char
  video_like_count : List Char
  video_duration : String
  video_category : String
  video_tags : List Char
  channel_id : String
  channel_title : String
  channel_country : String
  scraped_at : List Char
deriving DecidableEq

/-- Row construction inside `save_to_csv`'s loop
(`trending_videos_canada.py:325-358`): unlike `videos_to_dataframe`, the
counts are `stats.get("viewCount", "")` — the raw string, empty when the
key is absent — and every row receives the same `scraped_at` string. -/
def csv_row_of (categories : List (String × String))
    (channel_info : List (String × ChannelMeta)) (scrapedAt : List Char)
    (v : RawVideo) : CsvRow :=
  { video_id := v.id
    video_title := v.snippet.title
    video_published_at := v.snippet.publishedAt
    video_view_count := v.stats.viewCount.getD []
    video_like_count := v.stats.likeCount.getD []
    video_duration := parse_duration v.duration
    video_category := (List.lookup v.snippet.categoryId categories).getD ""
    video_tags := joinTags v.snippet.tags
    channel_id := v.snippet.channelId
    channel_title :=
      match List.lookup v.snippet.channelId channel_info with
      | some m => m.channel_title
      | none => v.snippet.channelTitle
    channel_country :=
      match List.lookup v.snippet.channelId channel_info with
      | some m => m.channel_country
      | none => ""
    scraped_at := scrapedAt }

/-- Model of `save_to_csv` (`trending_videos_canada.py:297-359`): the
`scraped_at` string is computed once before the loop and the data rows are
produced in order.  The wall-clock call is passed in as `scrapedAt`. -/
def save_to_csv (videos : List RawVideo) (channel_info : List (String × ChannelMeta))
    (categories : List (String × String)) (scrapedAt : List Char) : List CsvRow :=
  videos.map (csv_row_of categories channel_info scrapedAt)

/-- First data row's `scraped_at`, as `get_last_scrape_time` reads it back
(`trending_videos_canada.py:40-46`): `none` on an empty file or an empty
`scraped_at` cell. -/
def first_row_scraped_at (rows : List CsvRow) : Option (List Char) :=
  match rows with
  | [] => none
  | r :: _ => if r.scraped_at = [] then none else some r.scraped_at

/-- Model of `pd.to_numeric(col, errors="coerce").fillna(0).astype(int)`
applied to a stored count cell when the CSV is loaded back
(`app.py:287-288`): a numeric string parses, anything else becomes 0. -/
def load_count (cell : List Char) : Int :=
  match cell with
  | [] => 0
  | c :: cs =>
    if c = '-' then
      if cs ≠ [] ∧ cs.all Char.isDigit then -(digitsToNat cs : Int) else 0
    else
      if (c :: cs).all Char.isDigit then (digitsToNat (c :: cs) : Int) else 0

/-! Write atomicity and the category tab's refresh block
(`trending_videos_canada.py:297-359`, `app.py:449-592`). -/

/-- Outcome of the row-writing loop of a CSV write: either every row is
written, or an exception interrupts the loop after `k` rows. -/
inductive WriteOutcome
  | ok
  | failAt (k : Nat)
deriving DecidableEq

/-- Rows present in the file after a write attempt: `open(path, "w")`
truncates at once and rows are appended one by one
(`trending_videos_canada.py:321-359`), so a failure after `k` rows leaves
exactly the first `k` rows in the file. -/
def write_rows {ρ : Type} (rows : List ρ) (w : WriteOutcome) : List ρ :=
  match w with
  | .ok => rows
  | .failAt k => rows.take k

/-- File state of a cache key after a `put`: the previous content is erased
by the truncating `open` before the first row is written, so the result
never depends on it. -/
def put_rows {ρ : Type} (_prev : Option (List ρ)) (rows : List ρ)
    (w : WriteOutcome) : Option (List ρ) :=
  some (write_rows rows w)

/-- The durable trending file after an attempted `save_to_csv`
(`trending_videos_canada.py:297-359`). -/
def save_to_csv_put (prev : Option (List CsvRow)) (videos : List RawVideo)
    (channel_info : List (String × ChannelMeta)) (categories : List (String × String))
    (scrapedAt : List Char) (w : WriteOutcome) : Option (List CsvRow) :=
  put_rows prev (save_to_csv videos channel_info categories scrapedAt) w

/-- Entry of a per-category cache file as the category tab loads it:
rows plus the parsed `scraped_at` in UTC seconds (`app.py:455-472`). -/
structure CatEntry (α : Type) where
  rows : List α
  ts : Int
deriving DecidableEq

/-- Model of `is_category_cache_stale` (`app.py:481-489`): missing
timestamp is stale; otherwise stale when strictly older than the maximum
age. -/
def is_category_cache_stale (scrapedAt : Option Int) (now maxAgeMinutes : Int) : Bool :=
  match scrapedAt with
  | none => true
  | some t => decide (maxAgeMinutes * 60 < now - t)

/-- Refresh block of the category tab (`app.py:559-592`): when the cached
frame is empty or stale, the fetch pipeline runs; a pipeline exception is
caught and leaves the cache file untouched, an empty fetch result skips the
save, and a successful fetch writes the new rows with the current
timestamp (the write itself may fail partway, leaving a prefix). -/
def tab_by_category_step {α : Type} (prev : Option (CatEntry α)) (now maxAge : Int)
    (fetched : Except Unit (List α)) (w : WriteOutcome) : Option (CatEntry α) :=
  let needRefresh :=
    match prev with
    | none => true
    | some e => e.rows.isEmpty || is_category_cache_stale (some e.ts) now maxAge
  if needRefresh then
    match fetched with
    | .error _ => prev
    | .ok [] => prev
    | .ok vids => some { rows := write_rows vids w, ts := now }
  else prev

/-- Sample snippet with every optional field at its `get` default. -/
def sampleSnippet : RawSnippet :=
  { title := "", publishedAt := "", channelId := "", categoryId := ""
    channelTitle := "", tags := [] }

/-- Sample raw video whose statistics object carries no counts. -/
def videoNoStats : RawVideo :=
  { id := "v0", snippet := sampleSnippet, stats := { viewCount := none, likeCount := none }
    duration := "" }

/-- Sample raw video with view count 1 and like count 2. -/
def videoA : RawVideo :=
  { id := "a", snippet := sampleSnippet
    stats := { viewCount := some ['1'], likeCount := some ['2'] }, duration := "" }

/-- Sample raw video with view count 3 and like count 4. -/
def videoB : RawVideo :=
  { id := "b", snippet := sampleSnippet
    stats := { viewCount := some ['3'], likeCount := some ['4'] }, duration := "" }

/-- C3: counterexample — a `save_to_csv` write that fails after one of two
rows leaves the key holding that single row: neither the new records in
full nor the previous entry, i.e. a half-written state. -/
theorem save_atomic_counterexample :
    save_to_csv_put (some (save_to_csv [videoA] [] [] ['u'])) [videoA, videoB] [] [] ['t']
        (.failAt 1) ≠ some (save_to_csv [videoA, videoB] [] [] ['t']) ∧
    save_to_csv_put (some (save_to_csv [videoA] [] [] ['u'])) [videoA, videoB] [] [] ['t']
        (.failAt 1) ≠ some (save_to_csv [videoA] [] [] ['u']) := by decide

/-- C3 (amended): a refresh whose fetch pipeline fails before the write
leaves the previous cache entry unchanged (served stale), and a `put` whose
row-writing loop completes replaces the key in full; but a `put` whose
write fails partway leaves a truncated file rather than the previous value,
because the writer truncates in place instead of writing to a temporary
file and renaming. -/
theorem refresh_fallback_amended {α : Type} (prev : Option (CatEntry α))
    (now maxAge : Int) (w : WriteOutcome) (prevFile : Option (List α))
    (rows : List α) :
    tab_by_category_step prev now maxAge (.error ()) w = prev ∧
    put_rows prevFile rows .ok = some rows := by
  refine ⟨?_, rfl⟩
  unfold tab_by_category_step
  split
  · rfl
  · simp only []
    split <;> rfl

/-- C8: counterexample — for a raw video whose statistics carry no counts,
the row `save_to_csv` writes to the durable cache file holds empty count
cells (a missing/null marker), not the digit string "0". -/
theorem counts_csv_counterexample :
    (csv_row_of [] [] ['t'] videoNoStats).video_view_count = [] ∧
    (csv_row_of [] [] ['t'] videoNoStats).video_like_count = [] ∧
    ([] : List Char) ≠ ['0'] := by decide

lemma pyIntOrZero_nonneg (v : Option (List Char))
    (h : ∀ s, v = some s → ∀ c ∈ s, c.isDigit = true) : 0 ≤ pyIntOrZero v := by
  cases v with
  | none => simp [pyIntOrZero]
  | some s =>
    have hs := h s rfl
    cases s with
    | nil => simp [pyIntOrZero]
    | cons c cs =>
      have hc : c.isDigit = true := hs c (by simp)
      have hcne : ¬c = '-' := by
        intro e; rw [e] at hc; exact absurd hc (by decide)
      show (0 : Int) ≤ if (c :: cs : List Char) = [] then 0 else pyInt (c :: cs)
      rw [if_neg (by simp)]
      show (0 : Int) ≤ if c = '-' then -(digitsToNat cs : Int) else (digitsToNat (c :: cs) : Int)
      rw [if_neg hcne]
      exact Int.natCast_nonneg _

lemma load_count_nonneg (cell : List Char)
    (h : ∀ c ∈ cell, c.isDigit = true) : 0 ≤ load_count cell := by
  cases cell with
  | nil => simp [load_count]
  | cons c cs =>
    have hc : c.isDigit = true := h c (by simp)
    have hcne : ¬c = '-' := by
      intro e; rw [e] at hc; exact absurd hc (by decide)
    show (0 : Int) ≤ if c = '-' then _ else _
    rw [if_neg hcne]
    by_cases hall : (c :: cs).all Char.isDigit
    · rw [if_pos hall]; exact Int.natCast_nonneg _
    · rw [if_neg hall]

/-- C8 (amended): in the normalized records of `videos_to_dataframe` the
counts are non-negative and a missing count becomes 0; the rows written to
the durable cache file instead store the raw count string, with a missing
count as an empty cell — the zero normalization for durable data happens
when the file is loaded back (`pd.to_numeric(...).fillna(0)`), where the
value is again non-negative and 0 for a missing count. -/
theorem counts_nonneg_amended (categories : List (String × String))
    (channel_info : List (String × ChannelMeta)) (scrapedAt : List Char) (v : RawVideo)
    (hv : ∀ s, v.stats.viewCount = some s → ∀ c ∈ s, c.isDigit = true)
    (hl : ∀ s, v.stats.likeCount = some s → ∀ c ∈ s, c.isDigit = true) :
    0 ≤ (videos_to_dataframe_row categories channel_info v).video_view_count ∧
    0 ≤ (videos_to_dataframe_row categories channel_info v).video_like_count ∧
    (v.stats.viewCount = none →
      (videos_to_dataframe_row categories channel_info v).video_view_count = 0) ∧
    (v.stats.likeCount = none →
      (videos_to_dataframe_row categories channel_info v).video_like_count = 0) ∧
    0 ≤ load_count ((csv_row_of categories channel_info scrapedAt v).video_view_count) ∧
    0 ≤ load_count ((csv_row_of categories channel_info scrapedAt v).video_like_count) ∧
    (v.stats.viewCount = none →
      load_count ((csv_row_of categories channel_info scrapedAt v).video_view_count) = 0) ∧
    (v.stats.likeCount = none →
      load_count ((csv_row_of categories channel_info scrapedAt v).video_like_count) = 0) := by
  refine ⟨pyIntOrZero_nonneg _ hv, pyIntOrZero_nonneg _ hl, ?_, ?_, ?_, ?_, ?_, ?_⟩
  · intro hnone; simp [videos_to_dataframe_row, hnone, pyIntOrZero]
  · intro hnone; simp [videos_to_dataframe_row, hnone, pyIntOrZero]
  · apply load_count_nonneg
    intro c hc
    cases hvc : v.stats.viewCount with
    | none => simp [csv_row_of, hvc] at hc
    | some s =>
      simp only [csv_row_of, hvc, Option.getD_some] at hc
      exact hv s hvc c hc
  · apply load_count_nonneg
    intro c hc
    cases hvc : v.stats.likeCount with
    | none => simp [csv_row_of, hvc] at hc
    | some s =>
      simp only [csv_row_of, hvc, Option.getD_some] at hc
      exact hl s hvc c hc
  · intro hnone; simp [csv_row_of, hnone, load_count]
  · intro hnone; simp [csv_row_of, hnone, load_count]

/-- Witness for C8 (amended): the normalized view count of a video whose
raw view count is the digit string "1" is non-negative. -/
theorem counts_nonneg_amended_witness :
    0 ≤ (videos_to_dataframe_row [] [] videoA).video_view_count :=
  (counts_nonneg_amended [] [] ['t'] videoA
    (by intro s hs; injection hs with h; subst h; decide)
    (by intro s hs; injection hs with h; subst h; decide)).1

/-- C9: every row of a `save_to_csv` write carries the single `scraped_at`
value computed once for that write, and reading the first row's
`scraped_at` back recovers it. -/
theorem scraped_at_uniform (v : RawVideo) (vs : List RawVideo)
    (channel_info : List (String × ChannelMeta)) (categories : List (String × String))
    (c : Char) (cs : List Char) :
    (∀ r ∈ save_to_csv (v :: vs) channel_info categories (c :: cs),
      r.scraped_at = c :: cs) ∧
    first_row_scraped_at (save_to_csv (v :: vs) channel_info categories (c :: cs)) =
      some (c :: cs) := by
  constructor
  · intro r hr
    simp only [save_to_csv, List.mem_map] at hr
    obtain ⟨w, _, rfl⟩ := hr
    rfl
  · simp [save_to_csv, first_row_scraped_at, csv_row_of]

/-- Witness for C9: a one-video write stamped "t" reads back "t". -/
theorem scraped_at_uniform_witness :
    first_row_scraped_at (save_to_csv [videoA] [] [] ['t']) = some ['t'] :=
  (scraped_at_uniform videoA [] [] [] 't' []).2

/-! Channel metadata resolution (`trending_videos_canada.py:179-205`). -/

/-- Model of `dict.fromkeys` insertion
(`unique_ids = list(dict.fromkeys(channel_ids))`,
`trending_videos_canada.py:183`): walk the list keeping each identifier's
first occurrence; `seen` holds the keys already kept. -/
def dedupAux (seen : List String) : List String → List String
  | [] => []
  | x :: xs => if x ∈ seen then dedupAux seen xs else x :: dedupAux (x :: seen) xs

/-- The deduplicated identifier list, first occurrences in order. -/
def dict_fromkeys (l : List String) : List String :=
  dedupAux [] l

/-- Index of the first occurrence of `x` in `l` (`l.length` when absent);
used to state that deduplication preserves first-seen order. -/
def firstIdx (x : String) : List String → Nat
  | [] => 0
  | y :: ys => if y = x then 0 else firstIdx x ys + 1

/-- Batching `unique_ids[i:i+50] for i in range(0, len(unique_ids), 50)`
(`trending_videos_canada.py:184-187`) as successive 50-element chunks; the
fuel argument (instantiated with the list length) bounds the recursion. -/
def chunksAux {α : Type} : Nat → List α → List (List α)
  | 0, _ => []
  | _ + 1, [] => []
  | fuel + 1, x :: xs => ((x :: xs).take 50) :: chunksAux fuel ((x :: xs).drop 50)

/-- The 50-element batches of a list, in order. -/
def chunksOf50 {α : Type} (l : List α) : List (List α) :=
  chunksAux l.length l

/-- Python dict assignment `result[cid] = meta` on an association list:
replace the value when the key is present, otherwise append the pair. -/
def dict_update {β : Type} (m : List (String × β)) (k : String) (v : β) :
    List (String × β) :=
  if k ∈ m.map Prod.fst then m.map (fun p => if p.1 = k then (k, v) else p)
  else m ++ [(k, v)]

/-- Raw channel item of a channels-endpoint response
(`trending_videos_canada.py:194-198`). -/
structure RawChannel where
  id : String
  snippetTitle : String
  snippetCountry : Option String
  brandingCountry : Option String

/-- Python `a or b` on optional strings, where `None` and the empty string
are both falsy (`country = snippet.get("country") or branding.get("country")`,
`trending_videos_canada.py:198`). -/
def py_or_str (a b : Option String) : Option String :=
  match a with
  | some s => if s = "" then b else some s
  | none => b

/-- Metadata recorded for one response item
(`trending_videos_canada.py:200-203`): snippet title, and the country from
the snippet or the branding settings, defaulting to `""`. -/
def channel_meta_of (ch : RawChannel) : ChannelMeta :=
  { channel_title := ch.snippetTitle
    channel_country := (py_or_str ch.snippetCountry ch.brandingCountry).getD "" }

/-- Model of `fetch_channels_info` (`trending_videos_canada.py:179-205`):
deduplicate first-seen, batch the unique ids in 50s, issue one API call per
batch and merge every response item into the result dict.  Returns the
merged mapping together with the number of batch calls issued. -/
def fetch_channels_info (api : List String → List RawChannel)
    (channel_ids : List String) : List (String × ChannelMeta) × Nat :=
  let unique := dict_fromkeys channel_ids
  let batches := chunksOf50 unique
  (batches.foldl
    (fun m b => (api b).foldl (fun acc ch => dict_update acc ch.id (channel_meta_of ch)) m)
    [],
   batches.length)

lemma mem_dedupAux (x : String) : ∀ (l seen : List String),
    x ∈ dedupAux seen l ↔ x ∈ l ∧ x ∉ seen
  | [], seen => by simp [dedupAux]
  | y :: ys, seen => by
    rw [dedupAux]
    by_cases hy : y ∈ seen
    · rw [if_pos hy, mem_dedupAux x ys seen]
      constructor
      · rintro ⟨h1, h2⟩
        exact ⟨List.mem_cons_of_mem y h1, h2⟩
      · rintro ⟨h1, h2⟩
        rcases List.mem_cons.mp h1 with rfl | h1
        · exact absurd hy h2
        · exact ⟨h1, h2⟩
    · rw [if_neg hy, List.mem_cons, mem_dedupAux x ys (y :: seen)]
      constructor
      · rintro (rfl | ⟨h1, h2⟩)
        · exact ⟨List.mem_cons_self x ys, hy⟩
        · exact ⟨List.mem_cons_of_mem y h1,
            fun hs => h2 (List.mem_cons_of_mem y hs)⟩
      · rintro ⟨h1, h2⟩
        by_cases hxy : x = y
        · exact Or.inl hxy
        · rcases List.mem_cons.mp h1 with rfl | h1
          · exact absurd rfl hxy
          · exact Or.inr ⟨h1, fun hs => (List.mem_cons.mp hs).elim hxy h2⟩

lemma nodup_dedupAux : ∀ (l seen : List String), (dedupAux seen l).Nodup
  | [], _ => by simp [dedupAux]
  | y :: ys, seen => by
    rw [dedupAux]
    by_cases hy : y ∈ seen
    · rw [if_pos hy]
      exact nodup_dedupAux ys seen
    · rw [if_neg hy, List.nodup_cons]
      refine ⟨fun hmem => ?_, nodup_dedupAux ys (y :: seen)⟩
      exact ((mem_dedupAux y ys (y :: seen)).mp hmem).2 (List.mem_cons_self y seen)

lemma firstIdx_cons_ne (x y : String) (ys : List String) (h : y ≠ x) :
    firstIdx x (y :: ys) = firstIdx x ys + 1 := by
  simp [firstIdx, h]

lemma pairwise_dedupAux : ∀ (l seen : List String),
    (dedupAux seen l).Pairwise (fun a b => firstIdx a l < firstIdx b l)
  | [], seen => by simp [dedupAux]
  | y :: ys, seen => by
    rw [dedupAux]
    by_cases hy : y ∈ seen
    · rw [if_pos hy]
      refine (pairwise_dedupAux ys seen).imp_of_mem ?_
      intro a b ha hb hab
      have hane : y ≠ a := fun e => ((mem_dedupAux a ys seen).mp ha).2 (e ▸ hy)
      have hbne : y ≠ b := fun e => ((mem_dedupAux b ys seen).mp hb).2 (e ▸ hy)
      rw [firstIdx_cons_ne a y ys hane, firstIdx_cons_ne b y ys hbne]
      omega
    · rw [if_neg hy, List.pairwise_cons]
      constructor
      · intro b hb
        have hbne : y ≠ b := fun e =>
          ((mem_dedupAux b ys (y :: seen)).mp hb).2 (e ▸ List.mem_cons_self y seen)
        rw [firstIdx_cons_ne b y ys hbne]
        simp [firstIdx]
      · refine (pairwise_dedupAux ys (y :: seen)).imp_of_mem ?_
        intro a b ha hb hab
        have hane : y ≠ a := fun e =>
          ((mem_dedupAux a ys (y :: seen)).mp ha).2 (e ▸ List.mem_cons_self y seen)
        have hbne : y ≠ b := fun e =>
          ((mem_dedupAux b ys (y :: seen)).mp hb).2 (e ▸ List.mem_cons_self y seen)
        rw [firstIdx_cons_ne a y ys hane, firstIdx_cons_ne b y ys hbne]
        omega

lemma chunksAux_length {α : Type} : ∀ (fuel : Nat) (l : List α), l.length ≤ fuel →
    (chunksAux fuel l).length = (l.length + 49) / 50
  | 0, l, h => by
    have hl : l = [] := List.eq_nil_of_length_eq_zero (Nat.le_zero.mp h)
    subst hl
    simp [chunksAux]
  | _ + 1, [], _ => by simp [chunksAux]
  | fuel + 1, x :: xs, h => by
    rw [chunksAux]
    have hlen : ((x :: xs).drop 50).length = (x :: xs).length - 50 := by
      simp
    have hdrop : ((x :: xs).drop 50).length ≤ fuel := by
      rw [hlen]
      simp only [List.length_cons] at h ⊢
      omega
    rw [List.length_cons, chunksAux_length fuel _ hdrop, hlen]
    simp only [List.length_cons]
    omega

lemma chunksAux_bound {α : Type} : ∀ (fuel : Nat) (l : List α),
    ∀ b ∈ chunksAux fuel l, b.length ≤ 50 ∧ ∀ x ∈ b, x ∈ l
  | 0, l => by simp [chunksAux]
  | _ + 1, [] => by simp [chunksAux]
  | fuel + 1, x :: xs => by
    intro b hb
    rw [chunksAux] at hb
    rcases List.mem_cons.mp hb with rfl | hb
    · refine ⟨?_, fun y hy => List.take_subset 50 (x :: xs) hy⟩
      rw [List.length_take]
      omega
    · have h := chunksAux_bound fuel ((x :: xs).drop 50) b hb
      exact ⟨h.1, fun y hy => List.drop_subset 50 (x :: xs) (h.2 y hy)⟩

lemma chunksAux_flatten {α : Type} : ∀ (fuel : Nat) (l : List α), l.length ≤ fuel →
    (chunksAux fuel l).flatten = l
  | 0, l, h => by
    have hl : l = [] := List.eq_nil_of_length_eq_zero (Nat.le_zero.mp h)
    subst hl
    simp [chunksAux]
  | _ + 1, [], _ => by simp [chunksAux]
  | fuel + 1, x :: xs, h => by
    rw [chunksAux]
    have hdrop : ((x :: xs).drop 50).length ≤ fuel := by
      simp only [List.length_drop, List.length_cons] at *
      omega
    rw [List.flatten_cons, chunksAux_flatten fuel _ hdrop]
    exact List.take_append_drop 50 (x :: xs)

lemma map_fst_update_mem {β : Type} (m : List (String × β)) (k : String) (v : β) :
    (m.map (fun p => if p.1 = k then (k, v) else p)).map Prod.fst = m.map Prod.fst := by
  induction m with
  | nil => rfl
  | cons p ps ih =>
    simp only [List.map_cons, ih]
    congr 1
    by_cases hpk : p.1 = k
    · rw [if_pos hpk]
      exact hpk.symm
    · rw [if_neg hpk]

lemma dict_update_fst_iff {β : Type} (m : List (String × β)) (k : String) (v : β)
    (x : String) :
    x ∈ (dict_update m k v).map Prod.fst ↔ x = k ∨ x ∈ m.map Prod.fst := by
  unfold dict_update
  by_cases hk : k ∈ m.map Prod.fst
  · rw [if_pos hk, map_fst_update_mem]
    constructor
    · exact Or.inr
    · rintro (rfl | h)
      · exact hk
      · exact h
  · rw [if_neg hk]
    simp [or_comm]

lemma dict_update_fst_nodup {β : Type} (m : List (String × β)) (k : String) (v : β)
    (h : (m.map Prod.fst).Nodup) : ((dict_update m k v).map Prod.fst).Nodup := by
  unfold dict_update
  by_cases hk : k ∈ m.map Prod.fst
  · rw [if_pos hk, map_fst_update_mem]
    exact h
  · rw [if_neg hk]
    simp only [List.map_append, List.map_cons, List.map_nil]
    rw [List.nodup_append]
    refine ⟨h, List.nodup_singleton k, fun a ha hb => ?_⟩
    rw [List.mem_singleton] at hb
    exact hk (hb ▸ ha)

lemma foldl_update_fst_iff : ∀ (items : List RawChannel)
    (m : List (String × ChannelMeta)) (x : String),
    x ∈ (items.foldl (fun acc ch => dict_update acc ch.id (channel_meta_of ch)) m).map
        Prod.fst ↔
      x ∈ m.map Prod.fst ∨ x ∈ items.map RawChannel.id
  | [], m, x => by simp
  | ch :: chs, m, x => by
    simp only [List.foldl_cons, List.map_cons, List.mem_cons]
    rw [foldl_update_fst_iff chs _ x, dict_update_fst_iff]
    tauto

lemma foldl_update_fst_nodup : ∀ (items : List RawChannel)
    (m : List (String × ChannelMeta)),
    (m.map Prod.fst).Nodup →
    ((items.foldl (fun acc ch => dict_update acc ch.id (channel_meta_of ch)) m).map
      Prod.fst).Nodup
  | [], _, h => h
  | _ :: chs, m, h =>
    foldl_update_fst_nodup chs _ (dict_update_fst_nodup m _ _ h)

lemma foldl_batches_fst_iff (api : List String → List RawChannel) :
    ∀ (bs : List (List String)) (m : List (String × ChannelMeta)) (x : String),
    x ∈ ((bs.foldl
        (fun m b => (api b).foldl (fun acc ch => dict_update acc ch.id (channel_meta_of ch)) m)
        m).map Prod.fst) ↔
      x ∈ m.map Prod.fst ∨ ∃ b ∈ bs, x ∈ (api b).map RawChannel.id
  | [], m, x => by simp
  | b :: bs, m, x => by
    simp only [List.foldl_cons]
    rw [foldl_batches_fst_iff api bs _ x, foldl_update_fst_iff, List.exists_mem_cons_iff]
    tauto

lemma foldl_batches_fst_nodup (api : List String → List RawChannel) :
    ∀ (bs : List (List String)) (m : List (String × ChannelMeta)),
    (m.map Prod.fst).Nodup →
    ((bs.foldl
        (fun m b => (api b).foldl (fun acc ch => dict_update acc ch.id (channel_meta_of ch)) m)
        m).map Prod.fst).Nodup
  | [], _, h => h
  | b :: bs, m, h =>
    foldl_batches_fst_nodup api bs _ (foldl_update_fst_nodup (api b) m h)

/-- C4: `fetch_channels_info` deduplicates the identifiers keeping first
occurrences in their first-seen order, issues exactly ⌈uniqueCount / 50⌉
batch calls of at most 50 identifiers each, and — the remote being assumed
to answer only with requested identifiers — the merged mapping has distinct
keys drawn from the unique identifiers, hence at most uniqueCount of them;
when additionally no requested identifier is omitted from its response, the
mapping has exactly uniqueCount keys, so fewer keys occur only by
omission. -/
theorem fetch_channels_info_spec (api : List String → List RawChannel)
    (channel_ids : List String) :
    (dict_fromkeys channel_ids).Nodup ∧
    (∀ x, x ∈ dict_fromkeys channel_ids ↔ x ∈ channel_ids) ∧
    (dict_fromkeys channel_ids).Pairwise
      (fun a b => firstIdx a channel_ids < firstIdx b channel_ids) ∧
    (fetch_channels_info api channel_ids).2 =
      ((dict_fromkeys channel_ids).length + 49) / 50 ∧
    (∀ b ∈ chunksOf50 (dict_fromkeys channel_ids), b.length ≤ 50) ∧
    ((∀ ids, ∀ ch ∈ api ids, ch.id ∈ ids) →
      ((fetch_channels_info api channel_ids).1.map Prod.fst).Nodup ∧
      (∀ x ∈ (fetch_channels_info api channel_ids).1.map Prod.fst,
        x ∈ dict_fromkeys channel_ids) ∧
      (fetch_channels_info api channel_ids).1.length ≤
        (dict_fromkeys channel_ids).length) ∧
    ((∀ ids, ∀ ch ∈ api ids, ch.id ∈ ids) →
      (∀ ids k, k ∈ ids → k ∈ (api ids).map RawChannel.id) →
      (fetch_channels_info api channel_ids).1.length =
        (dict_fromkeys channel_ids).length) := by
  have hu : (dict_fromkeys channel_ids).Nodup := nodup_dedupAux channel_ids []
  have hflat : (chunksOf50 (dict_fromkeys channel_ids)).flatten =
      dict_fromkeys channel_ids :=
    chunksAux_flatten _ _ (le_refl _)
  have hnodup : ((fetch_channels_info api channel_ids).1.map Prod.fst).Nodup := by
    simp only [fetch_channels_info]
    exact foldl_batches_fst_nodup api _ [] (by simp)
  have hsub : (∀ ids, ∀ ch ∈ api ids, ch.id ∈ ids) →
      ∀ x ∈ (fetch_channels_info api channel_ids).1.map Prod.fst,
        x ∈ dict_fromkeys channel_ids := by
    intro hresp x hx
    simp only [fetch_channels_info] at hx
    rw [foldl_batches_fst_iff] at hx
    rcases hx with hx | ⟨b, hb, hx⟩
    · simp at hx
    · rcases List.mem_map.mp hx with ⟨ch, hch, rfl⟩
      exact (chunksAux_bound _ _ b hb).2 ch.id (hresp b ch hch)
  refine ⟨hu, ?_, pairwise_dedupAux channel_ids [], ?_, ?_, ?_, ?_⟩
  · intro x
    rw [dict_fromkeys, mem_dedupAux x channel_ids []]
    simp
  · simp only [fetch_channels_info]
    exact chunksAux_length _ _ (le_refl _)
  · intro b hb
    exact (chunksAux_bound _ _ b hb).1
  · intro hresp
    refine ⟨hnodup, hsub hresp, ?_⟩
    have hlen : (fetch_channels_info api channel_ids).1.length =
        ((fetch_channels_info api channel_ids).1.map Prod.fst).length := by
      rw [List.length_map]
    rw [hlen]
    exact (hnodup.subperm (fun a ha => hsub hresp a ha)).length_le
  · intro hresp hcomp
    have hsup : ∀ k ∈ dict_fromkeys channel_ids,
        k ∈ (fetch_channels_info api channel_ids).1.map Prod.fst := by
      intro k hk
      have hkfl : k ∈ (chunksOf50 (dict_fromkeys channel_ids)).flatten := by
        rw [hflat]; exact hk
      rcases List.mem_flatten.mp hkfl with ⟨b, hb, hkb⟩
      simp only [fetch_channels_info]
      rw [foldl_batches_fst_iff]
      exact Or.inr ⟨b, hb, hcomp b k hkb⟩
    have h1 := (hnodup.subperm (fun a ha => hsub hresp a ha)).length_le
    have h2 := (hu.subperm (fun a ha => hsup a ha)).length_le
    have heq := le_antisymm h1 h2
    rw [List.length_map] at heq
    exact heq

/-- Remote stub answering every batch with exactly the requested
identifiers. -/
def apiEcho : List String → List RawChannel :=
  fun ids => ids.map (fun i =>
    { id := i, snippetTitle := "", snippetCountry := none, brandingCountry := none })

/-- Witness for C4: on the input `["a", "b", "a"]` with an echoing remote,
the merged mapping has at most uniqueCount keys. -/
theorem fetch_channels_info_spec_witness :
    (fetch_channels_info apiEcho ["a", "b", "a"]).1.length ≤
      (dict_fromkeys ["a", "b", "a"]).length :=
  ((fetch_channels_info_spec apiEcho ["a", "b", "a"]).2.2.2.2.2.1 (by
    intro ids ch hch
    rcases List.mem_map.mp hch with ⟨i, hi, rfl⟩
    exact hi)).2.2

/-! Paginated trending fetch (`trending_videos_canada.py:126-155`). -/

/-- Response page of the trending endpoint: the items plus an optional
continuation token (`response.get("items", [])`,
`response.get("nextPageToken")`). -/
structure Page (α : Type) where
  items : List α
  nextPageToken : Option String

/-- Log entry for one issued page request: the `maxResults` parameter the
code passed to the API, and the items the response carried. -/
structure PageRequest (α : Type) where
  requested : Nat
  items : List α

/-- Loop of `fetch_top_videos` (`trending_videos_canada.py:131-153`): while
fewer than `maxResults` items are collected, request
`min(pageSize, maxResults - collected)` with the current continuation
token; stop on an empty page or on a response without a token.  The fuel
argument only bounds the recursion: it is instantiated with `maxResults`,
every recursive step grows `acc` by at least one item, so the invariant
`maxResults - acc.length ≤ fuel` holds throughout, and at fuel 0 the loop
guard `acc.length < maxResults` is false as well, so the fuel-0 exit
coincides with the guard exit. -/
def fetchLoop {α : Type} (api : Nat → Option String → Page α)
    (maxResults pageSize : Nat) :
    Nat → List α → Option String → List (PageRequest α) × List α
  | 0, acc, _ => ([], acc)
  | fuel + 1, acc, tok =>
    if acc.length < maxResults then
      if (api (min pageSize (maxResults - acc.length)) tok).items.isEmpty then
        ([{ requested := min pageSize (maxResults - acc.length),
            items := (api (min pageSize (maxResults - acc.length)) tok).items }], acc)
      else
        match (api (min pageSize (maxResults - acc.length)) tok).nextPageToken with
        | none =>
          ([{ requested := min pageSize (maxResults - acc.length),
              items := (api (min pageSize (maxResults - acc.length)) tok).items }],
           acc ++ (api (min pageSize (maxResults - acc.length)) tok).items)
        | some t =>
          ({ requested := min pageSize (maxResults - acc.length),
             items := (api (min pageSize (maxResults - acc.length)) tok).items } ::
              (fetchLoop api maxResults pageSize fuel
                (acc ++ (api (min pageSize (maxResults - acc.length)) tok).items)
                (some t)).1,
           (fetchLoop api maxResults pageSize fuel
             (acc ++ (api (min pageSize (maxResults - acc.length)) tok).items)
             (some t)).2)
    else ([], acc)

/-- Model of `fetch_top_videos` (`trending_videos_canada.py:126-155`): run
the pagination loop from an empty collection and no token, and return the
request log together with `all_videos[:max_results]`. -/
def fetch_top_videos {α : Type} (api : Nat → Option String → Page α)
    (maxResults pageSize : Nat) : List (PageRequest α) × List α :=
  ((fetchLoop api maxResults pageSize maxResults [] none).1,
   (fetchLoop api maxResults pageSize maxResults [] none).2.take maxResults)

lemma fetchLoop_videos_eq {α : Type} (api : Nat → Option String → Page α)
    (maxResults pageSize : Nat) : ∀ (fuel : Nat) (acc : List α) (tok : Option String),
    (fetchLoop api maxResults pageSize fuel acc tok).2 =
      acc ++ ((fetchLoop api maxResults pageSize fuel acc tok).1.map
        PageRequest.items).flatten
  | 0, acc, tok => by simp [fetchLoop]
  | fuel + 1, acc, tok => by
    rw [fetchLoop]
    by_cases hlt : acc.length < maxResults
    · rw [if_pos hlt]
      by_cases hempty :
          (api (min pageSize (maxResults - acc.length)) tok).items.isEmpty
      · rw [if_pos hempty]
        have hnil : (api (min pageSize (maxResults - acc.length)) tok).items = [] :=
          List.isEmpty_iff.mp hempty
        simp [hnil]
      · rw [if_neg hempty]
        cases htok : (api (min pageSize (maxResults - acc.length)) tok).nextPageToken with
        | none => simp
        | some t =>
          simp only [List.map_cons, List.flatten_cons]
          rw [fetchLoop_videos_eq api maxResults pageSize fuel
            (acc ++ (api (min pageSize (maxResults - acc.length)) tok).items) (some t)]
          rw [List.append_assoc]
    · rw [if_neg hlt]
      simp

lemma fetchLoop_requested {α : Type} (api : Nat → Option String → Page α)
    (maxResults pageSize : Nat) : ∀ (fuel : Nat) (acc : List α) (tok : Option String)
    (i : Nat) (r : PageRequest α),
    (fetchLoop api maxResults pageSize fuel acc tok).1.get? i = some r →
    r.requested = min pageSize (maxResults - (acc.length +
      (((fetchLoop api maxResults pageSize fuel acc tok).1.take i).map
        PageRequest.items).flatten.length))
  | 0, acc, tok, i, r => by simp [fetchLoop]
  | fuel + 1, acc, tok, i, r => by
    intro hget
    rw [fetchLoop] at hget ⊢
    by_cases hlt : acc.length < maxResults
    · rw [if_pos hlt] at hget ⊢
      by_cases hempty :
          (api (min pageSize (maxResults - acc.length)) tok).items.isEmpty
      · rw [if_pos hempty] at hget ⊢
        cases i with
        | zero =>
          rw [List.get?_cons_zero] at hget
          injection hget with he
          subst he
          simp
        | succ j => simp at hget
      · rw [if_neg hempty] at hget ⊢
        cases htok : (api (min pageSize (maxResults - acc.length)) tok).nextPageToken with
        | none =>
          rw [htok] at hget
          simp only [] at hget ⊢
          cases i with
          | zero =>
            rw [List.get?_cons_zero] at hget
            injection hget with he
            subst he
            simp
          | succ j => simp at hget
        | some t =>
          rw [htok] at hget
          simp only [] at hget ⊢
          cases i with
          | zero =>
            rw [List.get?_cons_zero] at hget
            injection hget with he
            subst he
            simp
          | succ j =>
            rw [List.get?_cons_succ] at hget
            have ih := fetchLoop_requested api maxResults pageSize fuel
              (acc ++ (api (min pageSize (maxResults - acc.length)) tok).items)
              (some t) j r hget
            rw [ih]
            simp only [List.take_succ_cons, List.map_cons, List.flatten_cons,
              List.length_append]
            congr 1
            omega
    · rw [if_neg hlt] at hget
      simp at hget

lemma fetchLoop_count {α : Type} (api : Nat → Option String → Page α)
    (maxResults pageSize : Nat) (hp : 0 < pageSize)
    (hfull : ∀ n tok, (api n tok).items.length = n) :
    ∀ (fuel : Nat) (acc : List α) (tok : Option String),
    (fetchLoop api maxResults pageSize fuel acc tok).1.length ≤
      (maxResults - acc.length + pageSize - 1) / pageSize
  | 0, acc, tok => by simp [fetchLoop]
  | fuel + 1, acc, tok => by
    rw [fetchLoop]
    by_cases hlt : acc.length < maxResults
    · rw [if_pos hlt]
      have hq : (api (min pageSize (maxResults - acc.length)) tok).items.length =
          min pageSize (maxResults - acc.length) := hfull _ _
      have hge1 : 1 ≤ (maxResults - acc.length + pageSize - 1) / pageSize := by
        rw [Nat.le_div_iff_mul_le hp]
        omega
      by_cases hempty :
          (api (min pageSize (maxResults - acc.length)) tok).items.isEmpty
      · rw [if_pos hempty]
        simpa using hge1
      · rw [if_neg hempty]
        cases htok : (api (min pageSize (maxResults - acc.length)) tok).nextPageToken with
        | none => simpa using hge1
        | some t =>
          simp only [List.length_cons]
          have ih := fetchLoop_count api maxResults pageSize hp hfull fuel
            (acc ++ (api (min pageSize (maxResults - acc.length)) tok).items) (some t)
          rw [List.length_append, hq] at ih
          by_cases hpr : maxResults - acc.length ≤ pageSize
          · have e0 : maxResults - (acc.length + min pageSize (maxResults - acc.length)) +
                pageSize - 1 = pageSize - 1 := by
              rw [Nat.min_eq_right hpr]
              omega
            rw [e0] at ih
            have hdiv : (pageSize - 1) / pageSize = 0 := Nat.div_eq_of_lt (by omega)
            rw [hdiv] at ih
            omega
          · have hle : pageSize ≤ maxResults - acc.length := by omega
            have e1 : maxResults - (acc.length + min pageSize (maxResults - acc.length)) +
                pageSize - 1 = maxResults - acc.length - 1 := by
              rw [Nat.min_eq_left hle]
              omega
            rw [e1] at ih
            have e2 : maxResults - acc.length + pageSize - 1 =
                (maxResults - acc.length - 1) + pageSize := by omega
            rw [e2, Nat.add_div_right _ hp]
            omega
    · rw [if_neg hlt]
      simp

/-- C1 (amended): `fetch_top_videos` returns at most `targetCount` records,
exactly a prefix of the concatenated pages in API order; every page request
asks for `min(pageSize, targetCount - collectedSoFar)`; and the number of
page requests is at most ⌈targetCount / pageSize⌉ whenever every response
carries as many items as were requested (with short pages the loop keeps
requesting until the target, an empty page, or a missing token stops it,
so the ceiling bound does not hold unconditionally). -/
theorem fetch_top_videos_spec {α : Type} (api : Nat → Option String → Page α)
    (maxResults pageSize : Nat) :
    (fetch_top_videos api maxResults pageSize).2.length ≤ maxResults ∧
    (fetch_top_videos api maxResults pageSize).2 =
      (((fetch_top_videos api maxResults pageSize).1.map
        PageRequest.items).flatten).take maxResults ∧
    (∀ (i : Nat) (r : PageRequest α),
      (fetch_top_videos api maxResults pageSize).1.get? i = some r →
      r.requested = min pageSize (maxResults -
        (((fetch_top_videos api maxResults pageSize).1.take i).map
          PageRequest.items).flatten.length)) ∧
    (0 < pageSize → (∀ n tok, (api n tok).items.length = n) →
      (fetch_top_videos api maxResults pageSize).1.length ≤
        (maxResults + pageSize - 1) / pageSize) := by
  refine ⟨?_, ?_, ?_, ?_⟩
  · show ((fetchLoop api maxResults pageSize maxResults [] none).2.take
      maxResults).length ≤ maxResults
    rw [List.length_take]
    exact min_le_left _ _
  · show (fetchLoop api maxResults pageSize maxResults [] none).2.take maxResults = _
    rw [fetchLoop_videos_eq]
    rw [List.nil_append]
    rfl
  · intro i r hget
    have hreq := fetchLoop_requested api maxResults pageSize maxResults [] none i r hget
    simpa using hreq
  · intro hp hfull
    have hcount := fetchLoop_count api maxResults pageSize hp hfull maxResults [] none
    simpa using hcount

/-- Adversarial but legal remote: every page carries one item and a
continuation token, fewer items than requested. -/
def apiOneEach : Nat → Option String → Page Nat :=
  fun _ _ => { items := [0], nextPageToken := some "t" }

/-- C1: counterexample — when pages return fewer items than requested,
target 2 with page size 2 already issues two page requests, exceeding
⌈2 / 2⌉ = 1, so the unconditional request-count bound of the claim is
false. -/
theorem fetch_top_videos_ceil_counterexample :
    (fetch_top_videos apiOneEach 2 2).1.length = 2 ∧
    ¬((fetch_top_videos apiOneEach 2 2).1.length ≤ (2 + 2 - 1) / 2) := by decide

/-- Remote stub returning exactly the requested number of items, always
with a continuation token. -/
def apiFull : Nat → Option String → Page Nat :=
  fun n _ => { items := List.replicate n 0, nextPageToken := some "t" }

/-- Witness for C1 (amended): with full pages, target 5 and page size 2
issue at most ⌈5 / 2⌉ = 3 requests. -/
theorem fetch_top_videos_spec_witness :
    (fetch_top_videos apiFull 5 2).1.length ≤ (5 + 2 - 1) / 2 :=
  (fetch_top_videos_spec apiFull 5 2).2.2.2 (by decide)
    (fun n tok => by simp [apiFull])
